import Mathlib

/-!
Shallow embedding of the CRM reconciliation engine (`crm/services.py`,
`crm/repositories.py`, `crm/models.py`, `crm/integration/skyline_client.py`).

Conventions of the embedding:
* dates and timestamps are `Nat`, entity ids are `Nat`, monetary amounts are `Int`;
* the SQLAlchemy session is a `CRMState` record of entity lists, threaded
  explicitly; `session.scalar(select(...))` becomes `List.find?` and in-place
  ORM mutation becomes replacing the first matching list element;
* Python exceptions become `Except String`;
* the `InforSkylineClient` is a parameter: `fetch_invoices` is passed in as an
  `Except String (List InvoicePayload)` (both implementations in the source
  either raise before yielding anything or return a fully built list), and
  `update_sale_date` as a function `String → Nat → SaleDateUpdateResponse`.
Only the entity fields that the modelled operations read or write are kept.
-/

/-- Stages of `models.OpportunityStage`. -/
inductive OpportunityStage where
  | prospect
  | proposal
  | negotiation
  | won
  | lost
deriving DecidableEq, Repr

/-- Statuses of `models.InvoiceStatus`. -/
inductive InvoiceStatus where
  | draft
  | issued
  | paid
  | overdue
deriving DecidableEq, Repr

/-- `models.Opportunity`, restricted to the fields the modelled services touch. -/
structure Opportunity where
  oid : Nat
  stage : OpportunityStage
  expected_close_date : Option Nat
  amount : Int
  infor_sales_order_id : Option String
  updated_at : Nat
deriving DecidableEq, Repr

/-- `models.Invoice`, restricted to the fields the modelled services touch. -/
structure Invoice where
  opportunity_id : Nat
  external_id : String
  amount : Int
  issue_date : Nat
  due_date : Option Nat
  status : InvoiceStatus
  currency : String
  last_sync_at : Option Nat
deriving DecidableEq, Repr

/-- `models.SalesDateUpdate`, restricted to the recorded fields. -/
structure SalesDateUpdate where
  opportunity_id : Nat
  previous_date : Option Nat
  new_date : Nat
  updated_by : String
  synced_with_infor : Bool
  sync_reference : Option String
deriving DecidableEq, Repr

/-- `models.SyncLog`, restricted to the recorded fields. -/
structure SyncLog where
  sync_type : String
  success : Bool
  details : String
deriving DecidableEq, Repr

/-- The persistent state reachable through the session: one list per table. -/
structure CRMState where
  opportunities : List Opportunity
  invoices : List Invoice
  sales_updates : List SalesDateUpdate
  sync_logs : List SyncLog
deriving DecidableEq, Repr

/-- `skyline_client.InvoicePayload`. -/
structure InvoicePayload where
  external_id : String
  opportunity_external_id : String
  amount : Int
  issue_date : Nat
  due_date : Option Nat
  status : String
  currency : String
deriving DecidableEq, Repr

/-- `skyline_client.SaleDateUpdateResponse`. -/
structure SaleDateUpdateResponse where
  success : Bool
  reference : Option String
  message : Option String
deriving DecidableEq, Repr

/-- Replace the first element satisfying `p` by its image under `f`; models an
in-place mutation of the single ORM object returned by `session.scalar`. -/
def updateFirst {α : Type} (p : α → Bool) (f : α → α) : List α → List α
  | [] => []
  | x :: rest => if p x then f x :: rest else x :: updateFirst p f rest

/-- `OpportunityRepository.get_by_infor_id`: first Opportunity whose
`infor_sales_order_id` equals the given external id (SQL `=`, so a NULL
column never matches). -/
def get_by_infor_id (opportunities : List Opportunity) (external_id : String) :
    Option Opportunity :=
  opportunities.find? (fun o =>
    match o.infor_sales_order_id with
    | some s => s == external_id
    | none => false)

/-- `InvoiceRepository.upsert_from_payload`: look the Invoice up by external id;
create it (appended, attached to `opportunity_id`) when absent, otherwise
overwrite amount, issue date, due date, status, currency and last-sync
timestamp of the found row. -/
def upsert_from_payload (now : Nat) (opportunity_id : Nat) (external_id : String)
    (amount : Int) (issue_date : Nat) (due_date : Option Nat)
    (status : InvoiceStatus) (currency : String)
    (invoices : List Invoice) : List Invoice :=
  match invoices.find? (fun inv => inv.external_id == external_id) with
  | none =>
      invoices ++
        [{ opportunity_id := opportunity_id
           external_id := external_id
           amount := amount
           issue_date := issue_date
           due_date := due_date
           status := status
           currency := currency
           last_sync_at := some now }]
  | some _ =>
      updateFirst (fun inv => inv.external_id == external_id)
        (fun inv =>
          { inv with
              amount := amount
              issue_date := issue_date
              due_date := due_date
              status := status
              currency := currency
              last_sync_at := some now })
        invoices

/-- Python's `InvoiceStatus(value)` lookup: `some` on one of the canonical
enum values, `none` where Python raises `ValueError`. -/
def invoiceStatusOfValue (s : String) : Option InvoiceStatus :=
  if s = "draft" then some InvoiceStatus.draft
  else if s = "issued" then some InvoiceStatus.issued
  else if s = "paid" then some InvoiceStatus.paid
  else if s = "overdue" then some InvoiceStatus.overdue
  else none

/-- Python's `str.lower()` as a character-wise case mapping (the simple
mapping agrees with Python on all ASCII text, in particular on the canonical
status vocabulary). -/
def strLower (s : String) : String := String.mk (s.data.map Char.toLower)

/-- The status coercion of `CRMService.synchronise_invoices` (the nested
`try/except ValueError` blocks): exact value first, then the lowercased value,
then the `issued` default. -/
def resolveInvoiceStatus (s : String) : InvoiceStatus :=
  match invoiceStatusOfValue s with
  | some st => st
  | none =>
      match invoiceStatusOfValue (strLower s) with
      | some st => st
      | none => InvoiceStatus.issued

/-- Python truthiness of an optional string: `None` and `""` are falsy. -/
def optTruthy : Option String → Bool
  | none => false
  | some s => decide (s ≠ "")

/-- Python's `response.message or "Failed to update Infor Skyline"`. -/
def messageOrDefault : Option String → String
  | none => "Failed to update Infor Skyline"
  | some m => if m = "" then "Failed to update Infor Skyline" else m

/-- `CRMService.update_sales_date` for an already well-formed opportunity id:
resolve the Opportunity, mutate its expected close date, call the Skyline
client when a (truthy) external order id is present, raise on an unsuccessful
outcome, otherwise record one `SalesDateUpdate` and return the Opportunity. -/
def update_sales_date (skyline : String → Nat → SaleDateUpdateResponse) (now : Nat)
    (opportunity_id : Nat) (new_date : Nat) (updated_by : String) (st : CRMState) :
    CRMState × Except String Opportunity :=
  match st.opportunities.find? (fun o => o.oid == opportunity_id) with
  | none => (st, Except.error ("Opportunity " ++ toString opportunity_id ++ " not found"))
  | some opportunity0 =>
      let previous_date := opportunity0.expected_close_date
      let opportunity : Opportunity :=
        { opportunity0 with expected_close_date := some new_date, updated_at := now }
      let stMut : CRMState :=
        { st with
            opportunities :=
              updateFirst (fun o => o.oid == opportunity_id) (fun _ => opportunity)
                st.opportunities }
      let localEntry : SalesDateUpdate :=
        { opportunity_id := opportunity.oid
          previous_date := previous_date
          new_date := new_date
          updated_by := updated_by
          synced_with_infor := false
          sync_reference := none }
      let localRecord : CRMState × Except String Opportunity :=
        ({ stMut with sales_updates := stMut.sales_updates ++ [localEntry] },
         Except.ok opportunity)
      match opportunity.infor_sales_order_id with
      | none => localRecord
      | some order_id =>
          if order_id = "" then localRecord
          else
            let response := skyline order_id new_date
            if response.success then
              let entry : SalesDateUpdate :=
                { opportunity_id := opportunity.oid
                  previous_date := previous_date
                  new_date := new_date
                  updated_by := updated_by
                  synced_with_infor := response.success
                  sync_reference := response.reference }
              ({ stMut with sales_updates := stMut.sales_updates ++ [entry] },
               Except.ok opportunity)
            else
              (stMut, Except.error (messageOrDefault response.message))

/-- One iteration of the payload loop in `CRMService.synchronise_invoices`:
resolve the Opportunity by external order id (warn and skip when unknown),
coerce the status and upsert the Invoice. The invoice table is kept as one
flat list here, which makes an Invoice appended earlier in the same batch
visible to later lookups; the source's `autoflush = False` session hides
same-batch INSERTs from the repository's SELECT, so this flat view coincides
with the program exactly when no two payloads of the batch share a freshly
created external id — `SessionInvoices` below models the general case. -/
def syncStep (now : Nat) (acc : CRMState × Nat × List String)
    (payload : InvoicePayload) : CRMState × Nat × List String :=
  let st := acc.1
  let processed := acc.2.1
  let errors := acc.2.2
  match get_by_infor_id st.opportunities payload.opportunity_external_id with
  | none =>
      (st, processed,
       errors ++ ["Unknown opportunity for invoice " ++ payload.external_id])
  | some opportunity =>
      let status := resolveInvoiceStatus payload.status
      ({ st with
          invoices :=
            upsert_from_payload now opportunity.oid payload.external_id payload.amount
              payload.issue_date payload.due_date status payload.currency st.invoices },
       processed + 1, errors)

/-- The payload loop of `CRMService.synchronise_invoices` over a whole batch,
starting from zero processed records and no warnings. -/
def runSyncBatch (now : Nat) (st : CRMState) (payloads : List InvoicePayload) :
    CRMState × Nat × List String :=
  payloads.foldl (syncStep now) (st, 0, [])

/-- The `details` string written to the SyncLog on normal completion. -/
def syncDetails (processed : Nat) (errors : List String) : String :=
  let details := "Processed " ++ toString processed ++ " invoices"
  if errors.isEmpty then details
  else details ++ "; warnings: " ++ String.intercalate " | " errors

/-- `CRMService.synchronise_invoices`: on a successful fetch, run the payload
loop, then write one SyncLog whose success flag is `errors empty`; when the
fetch raises, write one failure SyncLog carrying the joined error list and
re-raise. Returns the final state plus the `{processed, warnings}` result. -/
def synchronise_invoices (now : Nat) (fetched : Except String (List InvoicePayload))
    (st : CRMState) : CRMState × Except String (Nat × List String) :=
  match fetched with
  | Except.error exc =>
      let errors : List String := [] ++ [exc]
      let log : SyncLog :=
        { sync_type := "invoice"
          success := false
          details := String.intercalate "; " errors }
      ({ st with sync_logs := st.sync_logs ++ [log] }, Except.error exc)
  | Except.ok payloads =>
      let r := runSyncBatch now st payloads
      let st1 := r.1
      let processed := r.2.1
      let errors := r.2.2
      let log : SyncLog :=
        { sync_type := "invoice"
          success := errors.isEmpty
          details := syncDetails processed errors }
      ({ st1 with sync_logs := st1.sync_logs ++ [log] }, Except.ok (processed, errors))

/-- `OpportunityRepository.list_open`: every Opportunity whose stage is not
`won`. -/
def list_open (opportunities : List Opportunity) : List Opportunity :=
  opportunities.filter (fun o => decide (o.stage ≠ OpportunityStage.won))

/-- The dashboard aggregates of `schemas.SalesDashboard`. -/
structure SalesDashboard where
  total_open_pipeline : Int
  total_invoiced : Int
  total_paid : Int
  overdue_invoices : Nat
deriving DecidableEq, Repr

/-- `CRMService.build_sales_dashboard`: one accumulation pass over the open
opportunities and one over all invoices. -/
def build_sales_dashboard (st : CRMState) : SalesDashboard :=
  let total_open_pipeline :=
    (list_open st.opportunities).foldl (fun acc o => acc + o.amount) 0
  let r := st.invoices.foldl
    (fun (acc : Int × Int × Nat) invoice =>
      let amount := invoice.amount
      (acc.1 + amount,
       (if invoice.status = InvoiceStatus.paid then acc.2.1 + amount else acc.2.1),
       (if invoice.status = InvoiceStatus.overdue then acc.2.2 + 1 else acc.2.2)))
    (0, 0, 0)
  { total_open_pipeline := total_open_pipeline, total_invoiced := r.1,
    total_paid := r.2.1, overdue_invoices := r.2.2 }

/-! ### Basic facts about the status coercion -/

/-- The canonical string value of each invoice status, as declared on the
`InvoiceStatus` enum in `models.py`. -/
def statusValue : InvoiceStatus → String
  | InvoiceStatus.draft => "draft"
  | InvoiceStatus.issued => "issued"
  | InvoiceStatus.paid => "paid"
  | InvoiceStatus.overdue => "overdue"

theorem invoiceStatusOfValue_eq_some (s : String) (c : InvoiceStatus) :
    invoiceStatusOfValue s = some c ↔ s = statusValue c := by
  cases c <;> simp only [invoiceStatusOfValue, statusValue] <;>
    split_ifs <;> simp_all

theorem invoiceStatusOfValue_eq_none (s : String) :
    invoiceStatusOfValue s = none ↔ ∀ c, s ≠ statusValue c := by
  constructor
  · intro h c hc
    have := (invoiceStatusOfValue_eq_some s c).mpr hc
    rw [h] at this
    exact Option.noConfusion this
  · intro h
    cases hv : invoiceStatusOfValue s with
    | none => rfl
    | some c => exact absurd ((invoiceStatusOfValue_eq_some s c).mp hv) (h c)

/-- C6: the status text of a payload is resolved by exact match against the
canonical statuses first, then by lowercase match, then by defaulting to
`issued`; in particular `"PAID"` resolves to `paid` and `"bogus"` to `issued`. -/
theorem status_resolution_order (s : String) :
    (∀ c, s = statusValue c → resolveInvoiceStatus s = c) ∧
    ((∀ c, s ≠ statusValue c) → ∀ c, strLower s = statusValue c →
      resolveInvoiceStatus s = c) ∧
    ((∀ c, s ≠ statusValue c) → (∀ c, strLower s ≠ statusValue c) →
      resolveInvoiceStatus s = InvoiceStatus.issued) ∧
    resolveInvoiceStatus "PAID" = InvoiceStatus.paid ∧
    resolveInvoiceStatus "bogus" = InvoiceStatus.issued := by
  refine ⟨?_, ?_, ?_, by decide, by decide⟩
  · intro c hc
    unfold resolveInvoiceStatus
    rw [(invoiceStatusOfValue_eq_some s c).mpr hc]
  · intro hnone c hc
    unfold resolveInvoiceStatus
    rw [(invoiceStatusOfValue_eq_none s).mpr hnone,
      (invoiceStatusOfValue_eq_some (strLower s) c).mpr hc]
  · intro hnone hnone'
    unfold resolveInvoiceStatus
    rw [(invoiceStatusOfValue_eq_none s).mpr hnone,
      (invoiceStatusOfValue_eq_none (strLower s)).mpr hnone']

/-- Witness for C6: instantiating the resolution order at concrete inputs. -/
theorem status_resolution_order_witness :
    resolveInvoiceStatus "paid" = InvoiceStatus.paid ∧
    resolveInvoiceStatus "PAID" = InvoiceStatus.paid := by
  refine ⟨(status_resolution_order "paid").1 InvoiceStatus.paid (by decide), ?_⟩
  exact (status_resolution_order "PAID").2.2.2.1

/-! ### The sales date update workflow -/

/-- C7: with no (truthy) external order id, `update_sales_date` applies the
new expected close date, appends exactly one locally-authoritative
`SalesDateUpdate` (`synced_with_infor = false`, no reference, previous date
captured), returns the updated Opportunity, and never invokes the Skyline
client (the outcome is the same for every client). -/
theorem update_sales_date_local_only
    (sky sky' : String → Nat → SaleDateUpdateResponse) (now i nd : Nat)
    (actor : String) (st : CRMState) (opp : Opportunity)
    (hfind : st.opportunities.find? (fun o => o.oid == i) = some opp)
    (hno : optTruthy opp.infor_sales_order_id = false) :
    update_sales_date sky now i nd actor st =
      ({ st with
          opportunities :=
            updateFirst (fun o => o.oid == i)
              (fun _ => { opp with expected_close_date := some nd, updated_at := now })
              st.opportunities
          sales_updates := st.sales_updates ++
            [{ opportunity_id := opp.oid
               previous_date := opp.expected_close_date
               new_date := nd
               updated_by := actor
               synced_with_infor := false
               sync_reference := none }] },
       Except.ok { opp with expected_close_date := some nd, updated_at := now }) ∧
    update_sales_date sky now i nd actor st = update_sales_date sky' now i nd actor st := by
  have hbranch : ∀ (sk : String → Nat → SaleDateUpdateResponse),
      update_sales_date sk now i nd actor st =
        ({ st with
            opportunities :=
              updateFirst (fun o => o.oid == i)
                (fun _ => { opp with expected_close_date := some nd, updated_at := now })
                st.opportunities
            sales_updates := st.sales_updates ++
              [{ opportunity_id := opp.oid
                 previous_date := opp.expected_close_date
                 new_date := nd
                 updated_by := actor
                 synced_with_infor := false
                 sync_reference := none }] },
         Except.ok { opp with expected_close_date := some nd, updated_at := now }) := by
    intro sk
    unfold update_sales_date
    rw [hfind]
    cases hid : opp.infor_sales_order_id with
    | none => simp [hid]
    | some oid =>
        have : oid = "" := by
          by_contra hne
          simp [optTruthy, hid, hne] at hno
        subst this
        simp [hid]
  exact ⟨hbranch sky, (hbranch sky).trans (hbranch sky').symm⟩

/-- Witness for C7 at a concrete one-opportunity state. -/
theorem update_sales_date_local_only_witness :
    update_sales_date (fun _ _ => { success := true, reference := some "R", message := none })
        9 1 42 "amy"
        { opportunities := [{ oid := 1, stage := OpportunityStage.prospect,
                              expected_close_date := some 10, amount := 100,
                              infor_sales_order_id := none, updated_at := 0 }],
          invoices := [], sales_updates := [], sync_logs := [] } =
      ({ opportunities := [{ oid := 1, stage := OpportunityStage.prospect,
                             expected_close_date := some 42, amount := 100,
                             infor_sales_order_id := none, updated_at := 9 }],
         invoices := [],
         sales_updates := [{ opportunity_id := 1, previous_date := some 10,
                             new_date := 42, updated_by := "amy",
                             synced_with_infor := false, sync_reference := none }],
         sync_logs := [] },
       Except.ok { oid := 1, stage := OpportunityStage.prospect,
                   expected_close_date := some 42, amount := 100,
                   infor_sales_order_id := none, updated_at := 9 }) := by
  have h := update_sales_date_local_only
    (fun _ _ => { success := true, reference := some "R", message := none })
    (fun _ _ => { success := false, reference := none, message := none })
    9 1 42 "amy"
    { opportunities := [{ oid := 1, stage := OpportunityStage.prospect,
                          expected_close_date := some 10, amount := 100,
                          infor_sales_order_id := none, updated_at := 0 }],
      invoices := [], sales_updates := [], sync_logs := [] }
    { oid := 1, stage := OpportunityStage.prospect, expected_close_date := some 10,
      amount := 100, infor_sales_order_id := none, updated_at := 0 }
    (by decide) (by decide)
  rw [h.1]
  rfl

/-- C2: when the Opportunity carries a (truthy) external order id and the
Skyline client reports `success = false` with a non-empty message, the
workflow fails with an error carrying exactly that message, and no
`SalesDateUpdate` is appended by the invocation. -/
theorem update_sales_date_upstream_rejection
    (sky : String → Nat → SaleDateUpdateResponse) (now i nd : Nat)
    (actor : String) (st : CRMState) (opp : Opportunity) (order_id m : String)
    (r : Option String)
    (hfind : st.opportunities.find? (fun o => o.oid == i) = some opp)
    (hoid : opp.infor_sales_order_id = some order_id) (hne : order_id ≠ "")
    (hsky : sky order_id nd = { success := false, reference := r, message := some m })
    (hm : m ≠ "") :
    (update_sales_date sky now i nd actor st).2 = Except.error m ∧
    (update_sales_date sky now i nd actor st).1.sales_updates = st.sales_updates := by
  unfold update_sales_date
  rw [hfind]
  simp only [hoid, hne, if_false, hsky, messageOrDefault]
  simp [hne, hm]

/-- Witness for C2 at a concrete one-opportunity state and rejecting client. -/
theorem update_sales_date_upstream_rejection_witness :
    (update_sales_date
        (fun _ _ => { success := false, reference := none, message := some "quota exceeded" })
        9 1 42 "amy"
        { opportunities := [{ oid := 1, stage := OpportunityStage.prospect,
                              expected_close_date := some 10, amount := 100,
                              infor_sales_order_id := some "SO-7", updated_at := 0 }],
          invoices := [], sales_updates := [], sync_logs := [] }).2 =
      Except.error "quota exceeded" ∧
    (update_sales_date
        (fun _ _ => { success := false, reference := none, message := some "quota exceeded" })
        9 1 42 "amy"
        { opportunities := [{ oid := 1, stage := OpportunityStage.prospect,
                              expected_close_date := some 10, amount := 100,
                              infor_sales_order_id := some "SO-7", updated_at := 0 }],
          invoices := [], sales_updates := [], sync_logs := [] }).1.sales_updates = [] := by
  exact update_sales_date_upstream_rejection
    (fun _ _ => { success := false, reference := none, message := some "quota exceeded" })
    9 1 42 "amy"
    { opportunities := [{ oid := 1, stage := OpportunityStage.prospect,
                          expected_close_date := some 10, amount := 100,
                          infor_sales_order_id := some "SO-7", updated_at := 0 }],
      invoices := [], sales_updates := [], sync_logs := [] }
    { oid := 1, stage := OpportunityStage.prospect, expected_close_date := some 10,
      amount := 100, infor_sales_order_id := some "SO-7", updated_at := 0 }
    "SO-7" "quota exceeded" none
    (by decide) (by decide) (by decide) (by decide) (by decide)

/-- C10: a call whose new date equals the current expected close date is not
treated as a no-op — whenever the call succeeds it still appends exactly one
`SalesDateUpdate`, whose previous date equals the new date. -/
theorem update_sales_date_same_date_appends
    (sky : String → Nat → SaleDateUpdateResponse) (now i d : Nat)
    (actor : String) (st : CRMState) (opp : Opportunity)
    (hfind : st.opportunities.find? (fun o => o.oid == i) = some opp)
    (hsame : opp.expected_close_date = some d)
    (hok : ∃ o, (update_sales_date sky now i d actor st).2 = Except.ok o) :
    ∃ entry : SalesDateUpdate,
      (update_sales_date sky now i d actor st).1.sales_updates =
        st.sales_updates ++ [entry] ∧
      entry.previous_date = some d ∧ entry.new_date = d := by
  obtain ⟨o, ho⟩ := hok
  unfold update_sales_date at ho ⊢
  rw [hfind] at ho ⊢
  cases hid : opp.infor_sales_order_id with
  | none =>
      exact ⟨{ opportunity_id := opp.oid, previous_date := opp.expected_close_date,
               new_date := d, updated_by := actor, synced_with_infor := false,
               sync_reference := none },
             by simp [hid], by rw [hsame], rfl⟩
  | some oid =>
      by_cases hoid : oid = ""
      · subst hoid
        exact ⟨{ opportunity_id := opp.oid, previous_date := opp.expected_close_date,
                 new_date := d, updated_by := actor, synced_with_infor := false,
                 sync_reference := none },
               by simp [hid], by rw [hsame], rfl⟩
      · by_cases hsucc : (sky oid d).success
        · exact ⟨{ opportunity_id := opp.oid, previous_date := opp.expected_close_date,
                   new_date := d, updated_by := actor,
                   synced_with_infor := (sky oid d).success,
                   sync_reference := (sky oid d).reference },
                 by simp [hid, hoid, hsucc], by rw [hsame], rfl⟩
        · simp [hid, hoid, hsucc] at ho

/-- Witness for C10: updating to the already-current date still appends an
audit row whose previous date equals the new date. -/
theorem update_sales_date_same_date_appends_witness :
    ∃ entry : SalesDateUpdate,
      (update_sales_date
          (fun _ _ => { success := true, reference := some "R", message := none })
          9 1 10 "amy"
          { opportunities := [{ oid := 1, stage := OpportunityStage.prospect,
                                expected_close_date := some 10, amount := 100,
                                infor_sales_order_id := none, updated_at := 0 }],
            invoices := [], sales_updates := [], sync_logs := [] }).1.sales_updates =
        [] ++ [entry] ∧
      entry.previous_date = some 10 ∧ entry.new_date = 10 := by
  exact update_sales_date_same_date_appends
    (fun _ _ => { success := true, reference := some "R", message := none })
    9 1 10 "amy"
    { opportunities := [{ oid := 1, stage := OpportunityStage.prospect,
                          expected_close_date := some 10, amount := 100,
                          infor_sales_order_id := none, updated_at := 0 }],
      invoices := [], sales_updates := [], sync_logs := [] }
    { oid := 1, stage := OpportunityStage.prospect, expected_close_date := some 10,
      amount := 100, infor_sales_order_id := none, updated_at := 0 }
    (by decide) (by decide)
    ⟨{ oid := 1, stage := OpportunityStage.prospect, expected_close_date := some 10,
       amount := 100, infor_sales_order_id := none, updated_at := 9 }, by rfl⟩

/-! ### The reporting engine -/

theorem foldl_add_amount (l : List Opportunity) (a : Int) :
    l.foldl (fun acc o => acc + o.amount) a = a + (l.map (fun o => o.amount)).sum := by
  induction l generalizing a with
  | nil => simp
  | cons o rest ih => simp [ih, add_assoc]

theorem invoice_fold_spec (l : List Invoice) (ti tp : Int) (ov : Nat) :
    l.foldl
      (fun (acc : Int × Int × Nat) invoice =>
        let amount := invoice.amount
        (acc.1 + amount,
         (if invoice.status = InvoiceStatus.paid then acc.2.1 + amount else acc.2.1),
         (if invoice.status = InvoiceStatus.overdue then acc.2.2 + 1 else acc.2.2)))
      (ti, tp, ov) =
    (ti + (l.map (fun i => i.amount)).sum,
     tp + ((l.filter (fun i => decide (i.status = InvoiceStatus.paid))).map
       (fun i => i.amount)).sum,
     ov + (l.filter (fun i => decide (i.status = InvoiceStatus.overdue))).length) := by
  induction l generalizing ti tp ov with
  | nil => simp
  | cons x rest ih =>
      simp only [List.foldl_cons]
      rw [ih]
      cases hx : x.status <;>
        simp [hx, List.filter_cons, add_assoc, add_comm, add_left_comm]

/-- C9: the dashboard sums amounts of every Opportunity whose stage is not
`won` (so `lost` opportunities are included in the open pipeline), sums every
Invoice amount regardless of status, sums `paid` Invoice amounts, and counts
`overdue` Invoices. -/
theorem build_dashboard_totals (st : CRMState) :
    (build_sales_dashboard st).total_open_pipeline =
      ((st.opportunities.filter (fun o => decide (o.stage ≠ OpportunityStage.won))).map
        (fun o => o.amount)).sum ∧
    (build_sales_dashboard st).total_invoiced =
      (st.invoices.map (fun i => i.amount)).sum ∧
    (build_sales_dashboard st).total_paid =
      ((st.invoices.filter (fun i => decide (i.status = InvoiceStatus.paid))).map
        (fun i => i.amount)).sum ∧
    (build_sales_dashboard st).overdue_invoices =
      (st.invoices.filter (fun i => decide (i.status = InvoiceStatus.overdue))).length ∧
    ∀ o ∈ st.opportunities, o.stage = OpportunityStage.lost →
      o ∈ list_open st.opportunities := by
  refine ⟨?_, ?_, ?_, ?_, ?_⟩
  · show (list_open st.opportunities).foldl (fun acc o => acc + o.amount) 0 = _
    rw [foldl_add_amount]
    simp [list_open]
  · show (st.invoices.foldl _ ((0 : Int), (0 : Int), (0 : Nat))).1 = _
    rw [invoice_fold_spec]
    simp
  · show (st.invoices.foldl _ ((0 : Int), (0 : Int), (0 : Nat))).2.1 = _
    rw [invoice_fold_spec]
    simp
  · show (st.invoices.foldl _ ((0 : Int), (0 : Int), (0 : Nat))).2.2 = _
    rw [invoice_fold_spec]
    simp
  · intro o hmem hlost
    simp [list_open, List.mem_filter, hmem, hlost]

/-- Concrete state behind the spec's dashboard arithmetic example: one
`prospect` Opportunity of 100 and one `won` of 50, one `paid` Invoice of 30
and one `overdue` of 20. -/
def dashboardExampleState : CRMState :=
  { opportunities := [{ oid := 1, stage := OpportunityStage.prospect,
                        expected_close_date := none, amount := 100,
                        infor_sales_order_id := none, updated_at := 0 },
                      { oid := 2, stage := OpportunityStage.won,
                        expected_close_date := none, amount := 50,
                        infor_sales_order_id := none, updated_at := 0 }],
    invoices := [{ opportunity_id := 1, external_id := "a", amount := 30,
                   issue_date := 0, due_date := none,
                   status := InvoiceStatus.paid, currency := "USD",
                   last_sync_at := none },
                 { opportunity_id := 1, external_id := "b", amount := 20,
                   issue_date := 0, due_date := none,
                   status := InvoiceStatus.overdue, currency := "USD",
                   last_sync_at := none }],
    sales_updates := [], sync_logs := [] }

/-- Witness for C9: instantiating the dashboard arithmetic on the concrete
state of the spec's dashboard example. -/
theorem build_dashboard_totals_witness :
    (build_sales_dashboard dashboardExampleState).total_open_pipeline = 100 ∧
    (build_sales_dashboard dashboardExampleState).total_invoiced = 50 ∧
    (build_sales_dashboard dashboardExampleState).total_paid = 30 ∧
    (build_sales_dashboard dashboardExampleState).overdue_invoices = 1 := by
  obtain ⟨h1, h2, h3, h4, -⟩ := build_dashboard_totals dashboardExampleState
  exact ⟨by rw [h1]; rfl, by rw [h2]; rfl, by rw [h3]; rfl, by rw [h4]; rfl⟩

/-! ### The invoice upsert -/

/-- Membership of a matching invoice makes the upsert take its update branch. -/
theorem upsert_update_branch (now oid : Nat) (e : String) (a : Int)
    (idate : Nat) (dd : Option Nat) (s : InvoiceStatus) (c : String)
    (invs : List Invoice) (hmem : ∃ inv ∈ invs, inv.external_id = e) :
    upsert_from_payload now oid e a idate dd s c invs =
      updateFirst (fun inv => inv.external_id == e)
        (fun inv =>
          { inv with
              amount := a
              issue_date := idate
              due_date := dd
              status := s
              currency := c
              last_sync_at := some now })
        invs := by
  unfold upsert_from_payload
  cases hf : invs.find? (fun inv => inv.external_id == e) with
  | some inv => rfl
  | none =>
      rw [List.find?_eq_none] at hf
      obtain ⟨inv, hinv, he⟩ := hmem
      have hbad := hf inv hinv
      simp [he] at hbad

theorem updateFirst_getElem_of_nodup (e : String) (f : Invoice → Invoice)
    (invs : List Invoice)
    (hnodup : (invs.map (fun inv => inv.external_id)).Nodup) :
    ∀ j : Nat,
      (updateFirst (fun inv => inv.external_id == e) f invs)[j]? =
        (invs[j]?).map (fun inv => if inv.external_id = e then f inv else inv) := by
  induction invs with
  | nil => intro j; simp [updateFirst]
  | cons x rest ih =>
      simp only [List.map_cons, List.nodup_cons, List.mem_map] at hnodup
      obtain ⟨hxnot, hrest⟩ := hnodup
      intro j
      by_cases hx : x.external_id = e
      · have hpred : (fun inv => inv.external_id == e) x = true := by simp [hx]
        rw [updateFirst, if_pos hpred]
        match j with
        | 0 => simp [hx]
        | Nat.succ j =>
            simp only [List.getElem?_cons_succ]
            cases hr : rest[j]? with
            | none => simp
            | some inv =>
                have hmem : inv ∈ rest := List.getElem?_mem hr
                have : inv.external_id ≠ e := by
                  intro hinv
                  exact hxnot ⟨inv, hmem, by rw [hinv, hx]⟩
                simp [this]
      · have hpred : (fun inv => inv.external_id == e) x = false := by simp [hx]
        rw [updateFirst, if_neg (by simp [hpred])]
        match j with
        | 0 => simp [hx]
        | Nat.succ j => simpa using ih hrest j

/-- C8: upserting a payload whose external id already names a stored Invoice
keeps the list of (external id, owning opportunity) pairs unchanged — the
resolved opportunity id argument is irrelevant — and rewrites exactly the
matching Invoice's amount, issue date, due date, status, currency and
last-sync timestamp while leaving every other Invoice untouched. -/
theorem upsert_existing_preserves_owner (now oid : Nat) (e : String) (a : Int)
    (idate : Nat) (dd : Option Nat) (s : InvoiceStatus) (c : String)
    (invs : List Invoice)
    (hnodup : (invs.map (fun inv => inv.external_id)).Nodup)
    (hmem : ∃ inv ∈ invs, inv.external_id = e) :
    ((upsert_from_payload now oid e a idate dd s c invs).map
        (fun inv => (inv.external_id, inv.opportunity_id)) =
      invs.map (fun inv => (inv.external_id, inv.opportunity_id))) ∧
    ∀ j : Nat,
      (upsert_from_payload now oid e a idate dd s c invs)[j]? =
        (invs[j]?).map (fun inv =>
          if inv.external_id = e then
            { inv with
                amount := a
                issue_date := idate
                due_date := dd
                status := s
                currency := c
                last_sync_at := some now }
          else inv) := by
  have hup := upsert_update_branch now oid e a idate dd s c invs hmem
  have hidx := updateFirst_getElem_of_nodup e
    (fun inv =>
      { inv with
          amount := a
          issue_date := idate
          due_date := dd
          status := s
          currency := c
          last_sync_at := some now })
    invs hnodup
  constructor
  · apply List.ext_getElem?
    intro j
    rw [List.getElem?_map, List.getElem?_map, hup, hidx j]
    cases hr : invs[j]? with
    | none => rfl
    | some inv =>
        by_cases hx : inv.external_id = e <;> simp [hx]
  · intro j
    rw [hup, hidx j]

/-- Witness for C8: upserting an existing external id with a different
opportunity id leaves ownership and the other invoice untouched. -/
theorem upsert_existing_preserves_owner_witness :
    ((upsert_from_payload 7 99 "INV-1" 500 3 none InvoiceStatus.paid "EUR"
        [{ opportunity_id := 1, external_id := "INV-1", amount := 10,
           issue_date := 1, due_date := some 2, status := InvoiceStatus.issued,
           currency := "USD", last_sync_at := some 0 },
         { opportunity_id := 2, external_id := "INV-2", amount := 20,
           issue_date := 1, due_date := none, status := InvoiceStatus.draft,
           currency := "USD", last_sync_at := none }]).map
        (fun inv => (inv.external_id, inv.opportunity_id)) =
      [("INV-1", 1), ("INV-2", 2)]) ∧
    (upsert_from_payload 7 99 "INV-1" 500 3 none InvoiceStatus.paid "EUR"
        [{ opportunity_id := 1, external_id := "INV-1", amount := 10,
           issue_date := 1, due_date := some 2, status := InvoiceStatus.issued,
           currency := "USD", last_sync_at := some 0 },
         { opportunity_id := 2, external_id := "INV-2", amount := 20,
           issue_date := 1, due_date := none, status := InvoiceStatus.draft,
           currency := "USD", last_sync_at := none }])[0]? =
      some { opportunity_id := 1, external_id := "INV-1", amount := 500,
             issue_date := 3, due_date := none, status := InvoiceStatus.paid,
             currency := "EUR", last_sync_at := some 7 } := by
  have h := upsert_existing_preserves_owner 7 99 "INV-1" 500 3 none
    InvoiceStatus.paid "EUR"
    [{ opportunity_id := 1, external_id := "INV-1", amount := 10,
       issue_date := 1, due_date := some 2, status := InvoiceStatus.issued,
       currency := "USD", last_sync_at := some 0 },
     { opportunity_id := 2, external_id := "INV-2", amount := 20,
       issue_date := 1, due_date := none, status := InvoiceStatus.draft,
       currency := "USD", last_sync_at := none }]
    (by decide)
    ⟨{ opportunity_id := 1, external_id := "INV-1", amount := 10,
       issue_date := 1, due_date := some 2, status := InvoiceStatus.issued,
       currency := "USD", last_sync_at := some 0 }, by simp, rfl⟩
  refine ⟨?_, ?_⟩
  · rw [h.1]; rfl
  · rw [h.2 0]; rfl

/-! ### Decomposing the synchronisation loop -/

/-- The effect of the payload loop on the flat invoice table of `syncStep`:
each payload that resolves to an Opportunity is upserted, the others are
skipped (same same-batch visibility caveat as `syncStep`). -/
def applyPayloads (now : Nat) (opps : List Opportunity) (invs : List Invoice) :
    List InvoicePayload → List Invoice
  | [] => invs
  | p :: rest =>
      match get_by_infor_id opps p.opportunity_external_id with
      | none => applyPayloads now opps invs rest
      | some opp =>
          applyPayloads now opps
            (upsert_from_payload now opp.oid p.external_id p.amount p.issue_date
              p.due_date (resolveInvoiceStatus p.status) p.currency invs)
            rest

/-- One loop iteration splits into a contribution independent of the processed
counter and the warning accumulator. -/
theorem syncStep_split (now : Nat) (st : CRMState) (n : Nat) (e : List String)
    (p : InvoicePayload) :
    syncStep now (st, n, e) p =
      ((syncStep now (st, 0, []) p).1,
       n + (syncStep now (st, 0, []) p).2.1,
       e ++ (syncStep now (st, 0, []) p).2.2) := by
  cases hres : get_by_infor_id st.opportunities p.opportunity_external_id with
  | none => simp [syncStep, hres]
  | some opp => simp [syncStep, hres]

/-- The whole loop splits the same way: starting counters shift the result. -/
theorem runSync_shift (now : Nat) (ps : List InvoicePayload) :
    ∀ (st : CRMState) (n : Nat) (e : List String),
      ps.foldl (syncStep now) (st, n, e) =
        ((ps.foldl (syncStep now) (st, 0, [])).1,
         n + (ps.foldl (syncStep now) (st, 0, [])).2.1,
         e ++ (ps.foldl (syncStep now) (st, 0, [])).2.2) := by
  induction ps with
  | nil => intro st n e; simp
  | cons p rest ih =>
      intro st n e
      simp only [List.foldl_cons]
      rcases hS : syncStep now (st, 0, []) p with ⟨st1, n1, e1⟩
      rw [syncStep_split now st n e p, hS]
      simp only
      rw [ih st1 (n + n1) (e ++ e1), ih st1 n1 e1]
      simp [Nat.add_assoc, List.append_assoc]

/-- The loop never touches opportunities, sales updates or sync logs, and its
effect on the invoice table is `applyPayloads`. -/
theorem runSync_fold_state (now : Nat) (ps : List InvoicePayload) :
    ∀ (st : CRMState) (n : Nat) (e : List String),
      (ps.foldl (syncStep now) (st, n, e)).1 =
        { st with invoices := applyPayloads now st.opportunities st.invoices ps } := by
  induction ps with
  | nil => intro st n e; rfl
  | cons p rest ih =>
      intro st n e
      simp only [List.foldl_cons, applyPayloads]
      cases hres : get_by_infor_id st.opportunities p.opportunity_external_id with
      | none =>
          rw [show syncStep now (st, n, e) p =
            (st, n, e ++ ["Unknown opportunity for invoice " ++ p.external_id]) from
            by simp [syncStep, hres]]
          exact ih st n _
      | some opp =>
          rw [show syncStep now (st, n, e) p =
            ({ st with
                invoices :=
                  upsert_from_payload now opp.oid p.external_id p.amount p.issue_date
                    p.due_date (resolveInvoiceStatus p.status) p.currency st.invoices },
             n + 1, e) from by simp [syncStep, hres]]
          rw [ih _ (n + 1) e]

/-- `runSyncBatch` over a concatenation: the second half continues from the
first half's state, counters and warnings add up. -/
theorem runSyncBatch_append (now : Nat) (st : CRMState)
    (ps1 ps2 : List InvoicePayload) :
    runSyncBatch now st (ps1 ++ ps2) =
      ((runSyncBatch now (runSyncBatch now st ps1).1 ps2).1,
       (runSyncBatch now st ps1).2.1 +
         (runSyncBatch now (runSyncBatch now st ps1).1 ps2).2.1,
       (runSyncBatch now st ps1).2.2 ++
         (runSyncBatch now (runSyncBatch now st ps1).1 ps2).2.2) := by
  unfold runSyncBatch
  rw [List.foldl_append]
  rcases hA : List.foldl (syncStep now) (st, 0, []) ps1 with ⟨stA, nA, eA⟩
  rw [runSync_shift now ps2 stA nA eA]

/-- C3: every invocation writes exactly one SyncLog entry; on normal
completion its success flag is `warnings empty` and its details summarize the
processed count and any warnings; when the fetch raises, the single entry is a
failure carrying the accumulated warnings plus the failure text, and the
failure is re-raised to the caller. -/
theorem sync_writes_one_log (now : Nat)
    (fetched : Except String (List InvoicePayload)) (st : CRMState) :
    ((synchronise_invoices now fetched st).1.sync_logs.length =
      st.sync_logs.length + 1) ∧
    (∀ ps, fetched = Except.ok ps →
      (synchronise_invoices now fetched st).1.sync_logs =
        st.sync_logs ++
          [{ sync_type := "invoice"
             success := (runSyncBatch now st ps).2.2.isEmpty
             details := syncDetails (runSyncBatch now st ps).2.1
               (runSyncBatch now st ps).2.2 }] ∧
      (synchronise_invoices now fetched st).2 =
        Except.ok ((runSyncBatch now st ps).2.1, (runSyncBatch now st ps).2.2)) ∧
    (∀ exc, fetched = Except.error exc →
      (synchronise_invoices now fetched st).1.sync_logs =
        st.sync_logs ++ [{ sync_type := "invoice", success := false, details := exc }] ∧
      (synchronise_invoices now fetched st).2 = Except.error exc) := by
  have hok : ∀ ps, (synchronise_invoices now (Except.ok ps) st).1.sync_logs =
      st.sync_logs ++
        [{ sync_type := "invoice"
           success := (runSyncBatch now st ps).2.2.isEmpty
           details := syncDetails (runSyncBatch now st ps).2.1
             (runSyncBatch now st ps).2.2 }] := by
    intro ps
    show (runSyncBatch now st ps).1.sync_logs ++ _ = _
    rw [show (runSyncBatch now st ps).1 =
      { st with invoices := applyPayloads now st.opportunities st.invoices ps } from
      runSync_fold_state now ps st 0 []]
  refine ⟨?_, ?_, ?_⟩
  · cases fetched with
    | error exc => simp [synchronise_invoices]
    | ok ps => rw [hok ps]; simp
  · rintro ps rfl
    exact ⟨hok ps, rfl⟩
  · rintro exc rfl
    exact ⟨rfl, rfl⟩

/-- Witness for C3: a failing fetch on an empty store leaves exactly one
failure log entry and re-raises. -/
theorem sync_writes_one_log_witness :
    (synchronise_invoices 0 (Except.error "boom")
        { opportunities := [], invoices := [], sales_updates := [],
          sync_logs := [] }).1.sync_logs =
      [{ sync_type := "invoice", success := false, details := "boom" }] ∧
    (synchronise_invoices 0 (Except.error "boom")
        { opportunities := [], invoices := [], sales_updates := [],
          sync_logs := [] }).2 = Except.error "boom" := by
  have h := (sync_writes_one_log 0 (Except.error "boom")
    { opportunities := [], invoices := [], sales_updates := [],
      sync_logs := [] }).2.2 "boom" rfl
  exact ⟨h.1, h.2⟩

/-- The loop over a batch containing one unresolvable payload: the payload
contributes exactly one warning, no state change and no processed count. -/
theorem runSyncBatch_append_cons_unknown (now : Nat) (st : CRMState)
    (ps1 ps2 : List InvoicePayload) (p : InvoicePayload)
    (hp : get_by_infor_id st.opportunities p.opportunity_external_id = none) :
    runSyncBatch now st (ps1 ++ p :: ps2) =
      ((runSyncBatch now (runSyncBatch now st ps1).1 ps2).1,
       (runSyncBatch now st ps1).2.1 +
         (runSyncBatch now (runSyncBatch now st ps1).1 ps2).2.1,
       (runSyncBatch now st ps1).2.2 ++
         ("Unknown opportunity for invoice " ++ p.external_id) ::
           (runSyncBatch now (runSyncBatch now st ps1).1 ps2).2.2) := by
  unfold runSyncBatch
  rw [List.foldl_append, List.foldl_cons]
  have hopp : (List.foldl (syncStep now) (st, 0, []) ps1).1.opportunities =
      st.opportunities := by
    rw [runSync_fold_state now ps1 st 0 []]
  rcases hA : List.foldl (syncStep now) (st, 0, []) ps1 with ⟨stA, nA, eA⟩
  rw [hA] at hopp
  have hopp2 : stA.opportunities = st.opportunities := hopp
  have hstep : syncStep now (stA, nA, eA) p =
      (stA, nA, eA ++ ["Unknown opportunity for invoice " ++ p.external_id]) := by
    unfold syncStep
    simp only [hopp2, hp]
  rw [hstep, runSync_shift now ps2 stA nA _]
  simp

/-- C4: a payload whose external opportunity id matches no stored Opportunity
adds exactly one warning naming its external invoice id, creates no Invoice,
is not counted as processed, and the rest of the batch is processed exactly
as if the payload were absent. -/
theorem sync_unknown_opportunity (now : Nat) (st : CRMState)
    (ps1 ps2 : List InvoicePayload) (p : InvoicePayload)
    (hp : get_by_infor_id st.opportunities p.opportunity_external_id = none) :
    (synchronise_invoices now (Except.ok (ps1 ++ p :: ps2)) st).1.invoices =
      (synchronise_invoices now (Except.ok (ps1 ++ ps2)) st).1.invoices ∧
    (synchronise_invoices now (Except.ok (ps1 ++ p :: ps2)) st).2 =
      Except.ok
        ((runSyncBatch now st ps1).2.1 +
           (runSyncBatch now (runSyncBatch now st ps1).1 ps2).2.1,
         (runSyncBatch now st ps1).2.2 ++
           ("Unknown opportunity for invoice " ++ p.external_id) ::
             (runSyncBatch now (runSyncBatch now st ps1).1 ps2).2.2) ∧
    (synchronise_invoices now (Except.ok (ps1 ++ ps2)) st).2 =
      Except.ok
        ((runSyncBatch now st ps1).2.1 +
           (runSyncBatch now (runSyncBatch now st ps1).1 ps2).2.1,
         (runSyncBatch now st ps1).2.2 ++
           (runSyncBatch now (runSyncBatch now st ps1).1 ps2).2.2) := by
  refine ⟨?_, ?_, ?_⟩
  · show ({ (runSyncBatch now st (ps1 ++ p :: ps2)).1 with
        sync_logs := _ }).invoices =
      ({ (runSyncBatch now st (ps1 ++ ps2)).1 with sync_logs := _ }).invoices
    rw [runSyncBatch_append_cons_unknown now st ps1 ps2 p hp,
      runSyncBatch_append now st ps1 ps2]
  · show Except.ok ((runSyncBatch now st (ps1 ++ p :: ps2)).2.1,
        (runSyncBatch now st (ps1 ++ p :: ps2)).2.2) = _
    rw [runSyncBatch_append_cons_unknown now st ps1 ps2 p hp]
  · show Except.ok ((runSyncBatch now st (ps1 ++ ps2)).2.1,
        (runSyncBatch now st (ps1 ++ ps2)).2.2) = _
    rw [runSyncBatch_append now st ps1 ps2]

/-- Fixture: one stored Opportunity linked to external order id OPP-100. -/
def syncFixtureOpp : Opportunity :=
  { oid := 1, stage := OpportunityStage.prospect, expected_close_date := some 2,
    amount := 100, infor_sales_order_id := some "OPP-100", updated_at := 0 }

/-- Fixture: a store holding only `syncFixtureOpp`. -/
def syncFixtureState : CRMState :=
  { opportunities := [syncFixtureOpp], invoices := [], sales_updates := [],
    sync_logs := [] }

/-- Fixture: a payload resolving to `syncFixtureOpp`. -/
def payKnownA : InvoicePayload :=
  { external_id := "INV-1", opportunity_external_id := "OPP-100", amount := 10,
    issue_date := 1, due_date := some 2, status := "issued", currency := "USD" }

/-- Fixture: a payload whose opportunity id matches nothing in the store. -/
def payUnknown : InvoicePayload :=
  { external_id := "INV-2", opportunity_external_id := "NOPE", amount := 1,
    issue_date := 1, due_date := none, status := "paid", currency := "USD" }

/-- Fixture: a second payload resolving to `syncFixtureOpp`. -/
def payKnownB : InvoicePayload :=
  { external_id := "INV-3", opportunity_external_id := "OPP-100", amount := 5,
    issue_date := 1, due_date := none, status := "paid", currency := "USD" }

/-- Witness for C4: the unknown payload in the middle yields one warning with
its id, is not counted, and leaves the invoice table as if it were absent. -/
theorem sync_unknown_opportunity_witness :
    (synchronise_invoices 3 (Except.ok ([payKnownA] ++ payUnknown :: [payKnownB]))
        syncFixtureState).2 =
      Except.ok (2, ["Unknown opportunity for invoice INV-2"]) ∧
    (synchronise_invoices 3 (Except.ok ([payKnownA] ++ payUnknown :: [payKnownB]))
        syncFixtureState).1.invoices =
      (synchronise_invoices 3 (Except.ok ([payKnownA] ++ [payKnownB]))
        syncFixtureState).1.invoices := by
  have h := sync_unknown_opportunity 3 syncFixtureState [payKnownA] [payKnownB]
    payUnknown (by decide)
  refine ⟨?_, h.1⟩
  rw [h.2.1]
  rfl

/-- The loop over a batch containing one payload that resolves to `opp`: the
payload is upserted into the invoice table, counted once and adds no warning;
the rest of the batch continues from the upserted state. -/
theorem runSyncBatch_append_cons_resolved (now : Nat) (st : CRMState)
    (ps1 ps2 : List InvoicePayload) (p : InvoicePayload) (opp : Opportunity)
    (hp : get_by_infor_id st.opportunities p.opportunity_external_id = some opp) :
    runSyncBatch now st (ps1 ++ p :: ps2) =
      ((runSyncBatch now
          { (runSyncBatch now st ps1).1 with
              invoices := upsert_from_payload now opp.oid p.external_id p.amount
                p.issue_date p.due_date (resolveInvoiceStatus p.status) p.currency
                (runSyncBatch now st ps1).1.invoices } ps2).1,
       (runSyncBatch now st ps1).2.1 + 1 +
         (runSyncBatch now
           { (runSyncBatch now st ps1).1 with
               invoices := upsert_from_payload now opp.oid p.external_id p.amount
                 p.issue_date p.due_date (resolveInvoiceStatus p.status) p.currency
                 (runSyncBatch now st ps1).1.invoices } ps2).2.1,
       (runSyncBatch now st ps1).2.2 ++
         (runSyncBatch now
           { (runSyncBatch now st ps1).1 with
               invoices := upsert_from_payload now opp.oid p.external_id p.amount
                 p.issue_date p.due_date (resolveInvoiceStatus p.status) p.currency
                 (runSyncBatch now st ps1).1.invoices } ps2).2.2) := by
  unfold runSyncBatch
  rw [List.foldl_append, List.foldl_cons]
  have hopp : (List.foldl (syncStep now) (st, 0, []) ps1).1.opportunities =
      st.opportunities := by
    rw [runSync_fold_state now ps1 st 0 []]
  rcases hA : List.foldl (syncStep now) (st, 0, []) ps1 with ⟨stA, nA, eA⟩
  rw [hA] at hopp
  have hopp2 : stA.opportunities = st.opportunities := hopp
  have hstep : syncStep now (stA, nA, eA) p =
      ({ stA with
          invoices := upsert_from_payload now opp.oid p.external_id p.amount
            p.issue_date p.due_date (resolveInvoiceStatus p.status) p.currency
            stA.invoices },
       nA + 1, eA) := by
    unfold syncStep
    simp only [hopp2, hp]
  rw [hstep, runSync_shift now ps2 _ (nA + 1) eA]

/-- Fixture: a payload resolving to `syncFixtureOpp` whose status text matches
no canonical status even after lowercasing. -/
def payBogus : InvoicePayload :=
  { external_id := "INV-9", opportunity_external_id := "OPP-100", amount := 7,
    issue_date := 4, due_date := none, status := "bogus", currency := "USD" }

/-- Counterexample to C5: a batch whose only payload has the unparseable
status `"bogus"` and a known opportunity finishes with an empty warning list,
a successful SyncLog and details that mention no warning at all — the
unparseable status is not reported anywhere. -/
theorem sync_unparseable_status_counterexample :
    (synchronise_invoices 3 (Except.ok [payBogus]) syncFixtureState).2 =
      Except.ok (1, []) ∧
    (synchronise_invoices 3 (Except.ok [payBogus]) syncFixtureState).1.sync_logs =
      [{ sync_type := "invoice", success := true,
         details := "Processed 1 invoices" }] := by
  exact ⟨rfl, rfl⟩

/-- The invoice table state after the loop has merged a resolved payload under
the `issued` default status. -/
def midState (now : Nat) (st : CRMState) (ps1 : List InvoicePayload)
    (p : InvoicePayload) (opp : Opportunity) : CRMState :=
  { (runSyncBatch now st ps1).1 with
      invoices := upsert_from_payload now opp.oid p.external_id p.amount
        p.issue_date p.due_date InvoiceStatus.issued p.currency
        (runSyncBatch now st ps1).1.invoices }

/-- C5 (amended): a resolved payload with an unparseable status is still
processed — its Invoice is upserted under the defaulted `issued` status and it
is counted — but it contributes no warning: the batch result's warning list
and the single SyncLog entry reflect only the other payloads' warnings. -/
theorem sync_unparseable_status_processed (now : Nat) (st : CRMState)
    (ps1 ps2 : List InvoicePayload) (p : InvoicePayload) (opp : Opportunity)
    (hp : get_by_infor_id st.opportunities p.opportunity_external_id = some opp)
    (h1 : invoiceStatusOfValue p.status = none)
    (h2 : invoiceStatusOfValue (strLower p.status) = none) :
    resolveInvoiceStatus p.status = InvoiceStatus.issued ∧
    (synchronise_invoices now (Except.ok (ps1 ++ p :: ps2)) st).2 =
      Except.ok
        ((runSyncBatch now st ps1).2.1 + 1 +
           (runSyncBatch now (midState now st ps1 p opp) ps2).2.1,
         (runSyncBatch now st ps1).2.2 ++
           (runSyncBatch now (midState now st ps1 p opp) ps2).2.2) ∧
    (synchronise_invoices now (Except.ok (ps1 ++ p :: ps2)) st).1.sync_logs =
      st.sync_logs ++
        [{ sync_type := "invoice"
           success := ((runSyncBatch now st ps1).2.2 ++
             (runSyncBatch now (midState now st ps1 p opp) ps2).2.2).isEmpty
           details := syncDetails
             ((runSyncBatch now st ps1).2.1 + 1 +
               (runSyncBatch now (midState now st ps1 p opp) ps2).2.1)
             ((runSyncBatch now st ps1).2.2 ++
               (runSyncBatch now (midState now st ps1 p opp) ps2).2.2) }] := by
  have hres : resolveInvoiceStatus p.status = InvoiceStatus.issued := by
    unfold resolveInvoiceStatus
    rw [h1, h2]
  have hdec := runSyncBatch_append_cons_resolved now st ps1 ps2 p opp hp
  rw [hres] at hdec
  have hmid : midState now st ps1 p opp =
      { (runSyncBatch now st ps1).1 with
          invoices := upsert_from_payload now opp.oid p.external_id p.amount
            p.issue_date p.due_date InvoiceStatus.issued p.currency
            (runSyncBatch now st ps1).1.invoices } := rfl
  refine ⟨hres, ?_, ?_⟩
  · show Except.ok ((runSyncBatch now st (ps1 ++ p :: ps2)).2.1,
        (runSyncBatch now st (ps1 ++ p :: ps2)).2.2) = _
    rw [hmid, hdec]
  · show (runSyncBatch now st (ps1 ++ p :: ps2)).1.sync_logs ++ _ = _
    rw [show (runSyncBatch now st (ps1 ++ p :: ps2)).1 =
      { st with
          invoices :=
            applyPayloads now st.opportunities st.invoices (ps1 ++ p :: ps2) }
      from runSync_fold_state now _ st 0 [], hmid, hdec]

/-- Witness for C5 (amended): the `"bogus"`-status payload alone in a batch is
counted, stored as `issued`, and yields no warning and a successful log. -/
theorem sync_unparseable_status_processed_witness :
    (synchronise_invoices 3 (Except.ok ([] ++ payBogus :: []))
        syncFixtureState).2 = Except.ok (1, []) ∧
    (synchronise_invoices 3 (Except.ok ([] ++ payBogus :: []))
        syncFixtureState).1.sync_logs =
      [{ sync_type := "invoice", success := true,
         details := "Processed 1 invoices" }] := by
  have h := sync_unparseable_status_processed 3 syncFixtureState [] [] payBogus
    syncFixtureOpp (by decide) (by decide) (by decide)
  refine ⟨?_, ?_⟩
  · rw [h.2.1]; rfl
  · rw [h.2.2]; rfl


/-! ### Idempotence of the upsert-based merge -/

/-- The characteristic field tuple the sync overwrites on an Invoice. -/
def invoiceFields (inv : Invoice) : Int × Nat × Option Nat × InvoiceStatus × String :=
  (inv.amount, inv.issue_date, inv.due_date, inv.status, inv.currency)

/-- The field tuple a payload induces on its upserted Invoice. -/
def payloadFields (p : InvoicePayload) : Int × Nat × Option Nat × InvoiceStatus × String :=
  (p.amount, p.issue_date, p.due_date, resolveInvoiceStatus p.status, p.currency)


theorem updateFirst_map_ext (key : String) (f : Invoice → Invoice)
    (hf : ∀ inv, (f inv).external_id = inv.external_id) :
    ∀ invs : List Invoice,
      (updateFirst (fun inv => inv.external_id == key) f invs).map
          (fun inv => inv.external_id) =
        invs.map (fun inv => inv.external_id) := by
  intro invs
  induction invs with
  | nil => rfl
  | cons x rest ih =>
      by_cases hx : x.external_id = key
      · rw [updateFirst, if_pos (by simp [hx])]
        simp [hf x]
      · rw [updateFirst, if_neg (by simp [hx])]
        simp [ih]

theorem updateFirst_filter_ne (key e : String) (hne : e ≠ key)
    (f : Invoice → Invoice)
    (hf : ∀ inv, (f inv).external_id = inv.external_id) :
    ∀ invs : List Invoice,
      (updateFirst (fun inv => inv.external_id == key) f invs).filter
          (fun inv => inv.external_id == e) =
        invs.filter (fun inv => inv.external_id == e) := by
  intro invs
  induction invs with
  | nil => rfl
  | cons x rest ih =>
      by_cases hx : x.external_id = key
      · rw [updateFirst, if_pos (by simp [hx])]
        have h1 : ((f x).external_id == e) = false := by
          simp [hf x, hx, Ne.symm hne]
        have h2 : (x.external_id == e) = false := by
          simp [hx, Ne.symm hne]
        simp [List.filter_cons, h1, h2]
      · rw [updateFirst, if_neg (by simp [hx])]
        simp [List.filter_cons, ih]

theorem updateFirst_filter_same (now : Nat) (key : String) (a : Int)
    (idate : Nat) (dd : Option Nat) (s : InvoiceStatus) (c : String) :
    ∀ invs : List Invoice,
      (invs.map (fun inv => inv.external_id)).Nodup →
      (∃ inv ∈ invs, inv.external_id = key) →
      ((updateFirst (fun inv => inv.external_id == key)
          (fun inv =>
            { inv with
                amount := a
                issue_date := idate
                due_date := dd
                status := s
                currency := c
                last_sync_at := some now })
          invs).filter (fun inv => inv.external_id == key)).map invoiceFields =
        [(a, idate, dd, s, c)] := by
  intro invs
  induction invs with
  | nil => intro _ hmem; simp at hmem
  | cons x rest ih =>
      intro hnodup hmem
      simp only [List.map_cons, List.nodup_cons, List.mem_map] at hnodup
      obtain ⟨hxnot, hrest⟩ := hnodup
      by_cases hx : x.external_id = key
      · rw [updateFirst, if_pos (by simp [hx])]
        have hkeep : ((({ x with
            amount := a, issue_date := idate, due_date := dd, status := s,
            currency := c, last_sync_at := some now } : Invoice)).external_id
              == key) = true := by
          simp [hx]
        have hrestnil : rest.filter (fun inv => inv.external_id == key) = [] := by
          rw [List.filter_eq_nil_iff]
          intro inv hinv
          simp only [beq_iff_eq]
          intro hbad
          exact hxnot ⟨inv, hinv, by rw [hbad, hx]⟩
        simp [List.filter_cons, hkeep, hrestnil, invoiceFields]
      · rw [updateFirst, if_neg (by simp [hx])]
        have hdrop : (x.external_id == key) = false := by simp [hx]
        have hmem' : ∃ inv ∈ rest, inv.external_id = key := by
          obtain ⟨inv, hinv, he⟩ := hmem
          rcases List.mem_cons.mp hinv with h | h
          · exact absurd (h ▸ he) hx
          · exact ⟨inv, h, he⟩
        simp only [List.filter_cons, hdrop]
        exact ih hrest hmem'

/-- Fixture: a later payload reusing the external id of `payKnownA` with
different field values. -/
def payDupA : InvoicePayload :=
  { external_id := "INV-1", opportunity_external_id := "OPP-100", amount := 20,
    issue_date := 9, due_date := none, status := "PAID", currency := "EUR" }

/-! ### The session-level view of one reconciliation batch

`database.py` builds every session with `autoflush = False`, and the
enclosing `session_scope` commits only after `synchronise_invoices` returns.
Inside one batch the repository's `session.scalar(select(Invoice)...)`
therefore runs against the flushed rows only: an Invoice `session.add`ed for
an earlier payload of the same batch is invisible to later lookups, while a
flushed row mutated earlier in the batch is handed back, mutations included,
through the identity map (its `external_id` is never mutated, so the SQL
match is unaffected). The definitions below model the batch under exactly
this discipline. -/

/-- The invoice table as one `autoflush = False` session sees it during a
batch: `rows` are the Invoices flushed to the database when the batch began,
carrying their in-batch mutations; `pending` are the Invoices
`session.add`ed by this batch, invisible to the repository SELECT. -/
structure SessionInvoices where
  rows : List Invoice
  pending : List Invoice
deriving DecidableEq, Repr

/-- `InvoiceRepository.upsert_from_payload` as it executes inside the
`autoflush = False` session: the lookup scans only the flushed rows; a miss
schedules a pending INSERT, a hit overwrites the flushed row in place. -/
def upsert_from_payload_session (now : Nat) (opportunity_id : Nat)
    (external_id : String) (amount : Int) (issue_date : Nat)
    (due_date : Option Nat) (status : InvoiceStatus) (currency : String)
    (tbl : SessionInvoices) : SessionInvoices :=
  match tbl.rows.find? (fun inv => inv.external_id == external_id) with
  | none =>
      { tbl with
          pending := tbl.pending ++
            [{ opportunity_id := opportunity_id
               external_id := external_id
               amount := amount
               issue_date := issue_date
               due_date := due_date
               status := status
               currency := currency
               last_sync_at := some now }] }
  | some _ =>
      { tbl with
          rows :=
            updateFirst (fun inv => inv.external_id == external_id)
              (fun inv =>
                { inv with
                    amount := amount
                    issue_date := issue_date
                    due_date := due_date
                    status := status
                    currency := currency
                    last_sync_at := some now })
              tbl.rows }

/-- One iteration of the payload loop of `synchronise_invoices` over the
session-level table (the loop never modifies opportunities, so they are a
fixed parameter). -/
def syncStepSession (now : Nat) (opps : List Opportunity)
    (acc : SessionInvoices × Nat × List String) (payload : InvoicePayload) :
    SessionInvoices × Nat × List String :=
  match get_by_infor_id opps payload.opportunity_external_id with
  | none =>
      (acc.1, acc.2.1,
       acc.2.2 ++ ["Unknown opportunity for invoice " ++ payload.external_id])
  | some opportunity =>
      (upsert_from_payload_session now opportunity.oid payload.external_id
        payload.amount payload.issue_date payload.due_date
        (resolveInvoiceStatus payload.status) payload.currency acc.1,
       acc.2.1 + 1, acc.2.2)

/-- The payload loop of `synchronise_invoices` over a whole batch under the
session-level table. -/
def runSyncBatchSession (now : Nat) (opps : List Opportunity)
    (tbl : SessionInvoices) (payloads : List InvoicePayload) :
    SessionInvoices × Nat × List String :=
  payloads.foldl (syncStepSession now opps) (tbl, 0, [])

/-- The rows `session_scope` flushes at commit: the updated rows followed by
the pending INSERTs. The database accepts the flush only when the resulting
external ids are still unique (`Invoice.external_id` is `unique=True`). -/
def commitInvoices (tbl : SessionInvoices) : List Invoice :=
  tbl.rows ++ tbl.pending

theorem upsert_session_rows_ext (now oid : Nat) (key : String) (a : Int)
    (idate : Nat) (dd : Option Nat) (s : InvoiceStatus) (c : String)
    (tbl : SessionInvoices) :
    (upsert_from_payload_session now oid key a idate dd s c tbl).rows.map
        (fun inv => inv.external_id) =
      tbl.rows.map (fun inv => inv.external_id) := by
  unfold upsert_from_payload_session
  cases tbl.rows.find? (fun inv => inv.external_id == key) with
  | none => rfl
  | some _ =>
      exact updateFirst_map_ext key
        (fun inv =>
          { inv with
              amount := a
              issue_date := idate
              due_date := dd
              status := s
              currency := c
              last_sync_at := some now })
        (fun inv => rfl) tbl.rows

/-- A hit leaves the pending INSERT queue untouched. -/
theorem upsert_session_hit_pending (now oid : Nat) (key : String) (a : Int)
    (idate : Nat) (dd : Option Nat) (s : InvoiceStatus) (c : String)
    (tbl : SessionInvoices) (hmem : ∃ inv ∈ tbl.rows, inv.external_id = key) :
    (upsert_from_payload_session now oid key a idate dd s c tbl).pending =
      tbl.pending := by
  unfold upsert_from_payload_session
  cases hf : tbl.rows.find? (fun inv => inv.external_id == key) with
  | some _ => rfl
  | none =>
      rw [List.find?_eq_none] at hf
      obtain ⟨inv, hinv, he⟩ := hmem
      have hbad := hf inv hinv
      simp [he] at hbad

/-- A miss schedules exactly one pending INSERT built from the payload. -/
theorem upsert_session_miss (now oid : Nat) (key : String) (a : Int)
    (idate : Nat) (dd : Option Nat) (s : InvoiceStatus) (c : String)
    (tbl : SessionInvoices) (habs : ∀ inv ∈ tbl.rows, inv.external_id ≠ key) :
    upsert_from_payload_session now oid key a idate dd s c tbl =
      { tbl with
          pending := tbl.pending ++
            [{ opportunity_id := oid
               external_id := key
               amount := a
               issue_date := idate
               due_date := dd
               status := s
               currency := c
               last_sync_at := some now }] } := by
  unfold upsert_from_payload_session
  rw [List.find?_eq_none.mpr (by intro inv hinv; simpa using habs inv hinv)]

/-- An upsert under a different key moves no Invoice into or out of the
external id `e`, neither among the rows nor among the pending INSERTs. -/
theorem upsert_session_filter_ne (now oid : Nat) (key e : String)
    (hne : e ≠ key) (a : Int) (idate : Nat) (dd : Option Nat)
    (s : InvoiceStatus) (c : String) (tbl : SessionInvoices) :
    ((upsert_from_payload_session now oid key a idate dd s c tbl).rows.filter
        (fun inv => inv.external_id == e) =
      tbl.rows.filter (fun inv => inv.external_id == e)) ∧
    ((upsert_from_payload_session now oid key a idate dd s c tbl).pending.filter
        (fun inv => inv.external_id == e) =
      tbl.pending.filter (fun inv => inv.external_id == e)) := by
  unfold upsert_from_payload_session
  cases hf : tbl.rows.find? (fun inv => inv.external_id == key) with
  | none =>
      refine ⟨rfl, ?_⟩
      rw [List.filter_append]
      simp [List.filter_cons, Ne.symm hne]
  | some _ =>
      refine ⟨?_, rfl⟩
      exact updateFirst_filter_ne key e hne
        (fun inv =>
          { inv with
              amount := a
              issue_date := idate
              due_date := dd
              status := s
              currency := c
              last_sync_at := some now })
        (fun inv => rfl) tbl.rows

/-- Upserting an existing key rewrites the unique matching row to the
payload's field tuple and leaves the pending queue alone. -/
theorem upsert_session_filter_same_hit (now oid : Nat) (key : String)
    (a : Int) (idate : Nat) (dd : Option Nat) (s : InvoiceStatus) (c : String)
    (tbl : SessionInvoices)
    (hnodup : (tbl.rows.map (fun inv => inv.external_id)).Nodup)
    (hmem : ∃ inv ∈ tbl.rows, inv.external_id = key) :
    (((upsert_from_payload_session now oid key a idate dd s c tbl).rows.filter
        (fun inv => inv.external_id == key)).map invoiceFields =
      [(a, idate, dd, s, c)]) ∧
    (upsert_from_payload_session now oid key a idate dd s c tbl).pending =
      tbl.pending := by
  refine ⟨?_, upsert_session_hit_pending now oid key a idate dd s c tbl hmem⟩
  unfold upsert_from_payload_session
  cases hf : tbl.rows.find? (fun inv => inv.external_id == key) with
  | some _ => exact updateFirst_filter_same now key a idate dd s c tbl.rows hnodup hmem
  | none =>
      rw [List.find?_eq_none] at hf
      obtain ⟨inv, hinv, he⟩ := hmem
      have hbad := hf inv hinv
      simp [he] at hbad

/-- The loop never changes which external ids the flushed rows carry. -/
theorem runSyncSession_rows_ext (now : Nat) (opps : List Opportunity) :
    ∀ (ps : List InvoicePayload) (tbl : SessionInvoices) (n : Nat)
      (w : List String),
      (ps.foldl (syncStepSession now opps) (tbl, n, w)).1.rows.map
          (fun inv => inv.external_id) =
        tbl.rows.map (fun inv => inv.external_id) := by
  intro ps
  induction ps with
  | nil => intro tbl n w; rfl
  | cons p rest ih =>
      intro tbl n w
      simp only [List.foldl_cons]
      cases hres : get_by_infor_id opps p.opportunity_external_id with
      | none =>
          rw [show syncStepSession now opps (tbl, n, w) p =
            (tbl, n, w ++ ["Unknown opportunity for invoice " ++ p.external_id])
            from by simp [syncStepSession, hres]]
          exact ih tbl n _
      | some opp =>
          rw [show syncStepSession now opps (tbl, n, w) p =
            (upsert_from_payload_session now opp.oid p.external_id p.amount
              p.issue_date p.due_date (resolveInvoiceStatus p.status)
              p.currency tbl, n + 1, w)
            from by simp [syncStepSession, hres]]
          rw [ih _ (n + 1) w, upsert_session_rows_ext]

/-- A batch whose payload ids all name flushed rows performs only in-place
updates: the pending INSERT queue comes out exactly as it went in. -/
theorem runSyncSession_no_insert (now : Nat) (opps : List Opportunity) :
    ∀ (ps : List InvoicePayload) (tbl : SessionInvoices) (n : Nat)
      (w : List String),
      (∀ p ∈ ps, p.external_id ∈ tbl.rows.map (fun inv => inv.external_id)) →
      (ps.foldl (syncStepSession now opps) (tbl, n, w)).1.pending =
        tbl.pending := by
  intro ps
  induction ps with
  | nil => intro tbl n w _; rfl
  | cons p rest ih =>
      intro tbl n w h
      simp only [List.foldl_cons]
      cases hres : get_by_infor_id opps p.opportunity_external_id with
      | none =>
          rw [show syncStepSession now opps (tbl, n, w) p =
            (tbl, n, w ++ ["Unknown opportunity for invoice " ++ p.external_id])
            from by simp [syncStepSession, hres]]
          exact ih tbl n _ (fun q hq => h q (List.mem_cons_of_mem p hq))
      | some opp =>
          rw [show syncStepSession now opps (tbl, n, w) p =
            (upsert_from_payload_session now opp.oid p.external_id p.amount
              p.issue_date p.due_date (resolveInvoiceStatus p.status)
              p.currency tbl, n + 1, w)
            from by simp [syncStepSession, hres]]
          have hmem : ∃ inv ∈ tbl.rows, inv.external_id = p.external_id := by
            obtain ⟨inv, hinv, he⟩ :=
              List.mem_map.mp (h p (List.mem_cons_self p rest))
            exact ⟨inv, hinv, he⟩
          rw [ih _ (n + 1) w (fun q hq => by
            rw [upsert_session_rows_ext]
            exact h q (List.mem_cons_of_mem p hq))]
          exact upsert_session_hit_pending now opp.oid p.external_id p.amount
            p.issue_date p.due_date (resolveInvoiceStatus p.status) p.currency
            tbl hmem

/-- A sub-batch containing no payload with external id `e` leaves both the
`e`-rows and the `e`-pending INSERTs exactly as they were. -/
theorem runSyncSession_preserve_e (now : Nat) (opps : List Opportunity)
    (e : String) :
    ∀ (ps : List InvoicePayload) (tbl : SessionInvoices) (n : Nat)
      (w : List String),
      ps.filter (fun q => q.external_id == e) = [] →
      ((ps.foldl (syncStepSession now opps) (tbl, n, w)).1.rows.filter
          (fun inv => inv.external_id == e) =
        tbl.rows.filter (fun inv => inv.external_id == e)) ∧
      ((ps.foldl (syncStepSession now opps) (tbl, n, w)).1.pending.filter
          (fun inv => inv.external_id == e) =
        tbl.pending.filter (fun inv => inv.external_id == e)) := by
  intro ps
  induction ps with
  | nil => intro tbl n w _; exact ⟨rfl, rfl⟩
  | cons q rest ih =>
      intro tbl n w hfil
      rw [List.filter_cons] at hfil
      by_cases hq : (q.external_id == e) = true
      · rw [if_pos hq] at hfil
        exact List.noConfusion hfil
      · rw [if_neg hq] at hfil
        have hqe : e ≠ q.external_id := by
          intro h
          exact hq (by simp [h])
        simp only [List.foldl_cons]
        cases hres : get_by_infor_id opps q.opportunity_external_id with
        | none =>
            rw [show syncStepSession now opps (tbl, n, w) q =
              (tbl, n, w ++ ["Unknown opportunity for invoice " ++ q.external_id])
              from by simp [syncStepSession, hres]]
            exact ih tbl n _ hfil
        | some opp =>
            rw [show syncStepSession now opps (tbl, n, w) q =
              (upsert_from_payload_session now opp.oid q.external_id q.amount
                q.issue_date q.due_date (resolveInvoiceStatus q.status)
                q.currency tbl, n + 1, w)
              from by simp [syncStepSession, hres]]
            have hfr := upsert_session_filter_ne now opp.oid q.external_id e
              hqe q.amount q.issue_date q.due_date
              (resolveInvoiceStatus q.status) q.currency tbl
            have hrec := ih (upsert_from_payload_session now opp.oid
              q.external_id q.amount q.issue_date q.due_date
              (resolveInvoiceStatus q.status) q.currency tbl) (n + 1) w hfil
            exact ⟨hrec.1.trans hfr.1, hrec.2.trans hfr.2⟩

/-- A payload list with pairwise-distinct external ids filters to exactly the
member payload under that member's external id. -/
theorem payload_filter_singleton (ps : List InvoicePayload) (p : InvoicePayload)
    (hnodup : (ps.map (fun q => q.external_id)).Nodup) (hp : p ∈ ps) :
    ps.filter (fun q => q.external_id == p.external_id) = [p] := by
  induction ps with
  | nil => simp at hp
  | cons q rest ih =>
      simp only [List.map_cons, List.nodup_cons, List.mem_map] at hnodup
      obtain ⟨hqnot, hrest⟩ := hnodup
      rcases List.mem_cons.mp hp with h | h
      · subst h
        rw [List.filter_cons, if_pos (by simp)]
        have : rest.filter (fun q => q.external_id == p.external_id) = [] := by
          rw [List.filter_eq_nil_iff]
          intro x hx
          simp only [beq_iff_eq]
          intro hbad
          exact hqnot ⟨x, hx, hbad⟩
        rw [this]
      · have hne : (q.external_id == p.external_id) = false := by
          simp only [beq_eq_false_iff_ne, ne_eq]
          intro hbad
          exact hqnot ⟨p, h, hbad.symm⟩
        rw [List.filter_cons, if_neg (by simp [hne]), ih hrest h]

/-- The per-id effect of one batch that carries exactly one payload `p` under
the external id `e`: if a flushed row already carries `e` it is rewritten in
place to `p`'s field tuple and nothing is inserted under `e`; otherwise the
rows stay free of `e` and exactly one pending INSERT with `p`'s field tuple
is appended. -/
theorem runSyncSession_filter_e (now : Nat) (opps : List Opportunity)
    (e : String) (p : InvoicePayload)
    (hp : (get_by_infor_id opps p.opportunity_external_id).isSome = true) :
    ∀ (ps : List InvoicePayload) (tbl : SessionInvoices) (n : Nat)
      (w : List String),
      ps.filter (fun q => q.external_id == e) = [p] →
      (tbl.rows.map (fun inv => inv.external_id)).Nodup →
      (((ps.foldl (syncStepSession now opps) (tbl, n, w)).1.rows.filter
          (fun inv => inv.external_id == e)).map invoiceFields =
        (if e ∈ tbl.rows.map (fun inv => inv.external_id)
         then [payloadFields p] else [])) ∧
      (((ps.foldl (syncStepSession now opps) (tbl, n, w)).1.pending.filter
          (fun inv => inv.external_id == e)).map invoiceFields =
        ((tbl.pending.filter (fun inv => inv.external_id == e)).map
          invoiceFields) ++
          (if e ∈ tbl.rows.map (fun inv => inv.external_id)
           then [] else [payloadFields p])) := by
  intro ps
  induction ps with
  | nil => intro tbl n w hfil _; exact absurd hfil (by simp)
  | cons q rest ih =>
      intro tbl n w hfil hnodup
      rw [List.filter_cons] at hfil
      by_cases hq : (q.external_id == e) = true
      · rw [if_pos hq] at hfil
        simp only [List.cons.injEq] at hfil
        obtain ⟨hqp, hrest⟩ := hfil
        subst hqp
        have hpe : q.external_id = e := by simpa using hq
        subst hpe
        obtain ⟨opp, hopp⟩ := Option.isSome_iff_exists.mp hp
        simp only [List.foldl_cons]
        rw [show syncStepSession now opps (tbl, n, w) q =
          (upsert_from_payload_session now opp.oid q.external_id q.amount
            q.issue_date q.due_date (resolveInvoiceStatus q.status)
            q.currency tbl, n + 1, w)
          from by simp [syncStepSession, hopp]]
        have hpres := runSyncSession_preserve_e now opps q.external_id rest
          (upsert_from_payload_session now opp.oid q.external_id q.amount
            q.issue_date q.due_date (resolveInvoiceStatus q.status)
            q.currency tbl) (n + 1) w hrest
        by_cases hmem : q.external_id ∈ tbl.rows.map (fun inv => inv.external_id)
        · have hmem' : ∃ inv ∈ tbl.rows, inv.external_id = q.external_id := by
            obtain ⟨inv, hi, he⟩ := List.mem_map.mp hmem
            exact ⟨inv, hi, he⟩
          have hsame := upsert_session_filter_same_hit now opp.oid
            q.external_id q.amount q.issue_date q.due_date
            (resolveInvoiceStatus q.status) q.currency tbl hnodup hmem'
          constructor
          · rw [hpres.1, if_pos hmem]
            simpa [payloadFields] using hsame.1
          · rw [hpres.2, hsame.2, if_pos hmem]
            simp
        · have habs : ∀ inv ∈ tbl.rows, inv.external_id ≠ q.external_id := by
            intro inv hi hbad
            exact hmem (List.mem_map.mpr ⟨inv, hi, hbad⟩)
          have hmiss := upsert_session_miss now opp.oid q.external_id q.amount
            q.issue_date q.due_date (resolveInvoiceStatus q.status) q.currency
            tbl habs
          constructor
          · rw [hpres.1, hmiss, if_neg hmem]
            have : tbl.rows.filter (fun inv => inv.external_id == q.external_id)
                = [] := by
              rw [List.filter_eq_nil_iff]
              intro inv hi
              simpa using habs inv hi
            simp [this]
          · rw [hpres.2, hmiss, if_neg hmem]
            simp [List.filter_append, List.filter_cons, invoiceFields,
              payloadFields]
      · rw [if_neg hq] at hfil
        have hqe : e ≠ q.external_id := by
          intro h
          exact hq (by simp [h])
        simp only [List.foldl_cons]
        cases hres : get_by_infor_id opps q.opportunity_external_id with
        | none =>
            rw [show syncStepSession now opps (tbl, n, w) q =
              (tbl, n, w ++ ["Unknown opportunity for invoice " ++ q.external_id])
              from by simp [syncStepSession, hres]]
            exact ih tbl n _ hfil hnodup
        | some opp2 =>
            rw [show syncStepSession now opps (tbl, n, w) q =
              (upsert_from_payload_session now opp2.oid q.external_id q.amount
                q.issue_date q.due_date (resolveInvoiceStatus q.status)
                q.currency tbl, n + 1, w)
              from by simp [syncStepSession, hres]]
            have hfr := upsert_session_filter_ne now opp2.oid q.external_id e
              hqe q.amount q.issue_date q.due_date
              (resolveInvoiceStatus q.status) q.currency tbl
            have hrowsext := upsert_session_rows_ext now opp2.oid
              q.external_id q.amount q.issue_date q.due_date
              (resolveInvoiceStatus q.status) q.currency tbl
            have hrec := ih (upsert_from_payload_session now opp2.oid
                q.external_id q.amount q.issue_date q.due_date
                (resolveInvoiceStatus q.status) q.currency tbl) (n + 1) w hfil
              (by rw [hrowsext]; exact hnodup)
            constructor
            · rw [hrec.1, hrowsext]
            · rw [hrec.2, hfr.2, hrowsext]

/-- A batch with pairwise-distinct payload ids, none colliding with an
already-pending INSERT, keeps the committed external ids unique: updates
change no id, and an INSERT is scheduled only for an id absent from the rows,
from the queue and from the rest of the batch. -/
theorem runSyncSession_commit_nodup (now : Nat) (opps : List Opportunity) :
    ∀ (ps : List InvoicePayload) (tbl : SessionInvoices) (n : Nat)
      (w : List String),
      ((tbl.rows.map (fun inv => inv.external_id)) ++
        (tbl.pending.map (fun inv => inv.external_id))).Nodup →
      (ps.map (fun p => p.external_id)).Nodup →
      (∀ p ∈ ps, p.external_id ∉ tbl.pending.map (fun inv => inv.external_id)) →
      ((commitInvoices
          (ps.foldl (syncStepSession now opps) (tbl, n, w)).1).map
        (fun inv => inv.external_id)).Nodup := by
  intro ps
  induction ps with
  | nil =>
      intro tbl n w hcomb _ _
      simpa [commitInvoices] using hcomb
  | cons q rest ih =>
      intro tbl n w hcomb hpsnodup hfresh
      simp only [List.map_cons, List.nodup_cons] at hpsnodup
      obtain ⟨hqnot, hrestnodup⟩ := hpsnodup
      simp only [List.foldl_cons]
      cases hres : get_by_infor_id opps q.opportunity_external_id with
      | none =>
          rw [show syncStepSession now opps (tbl, n, w) q =
            (tbl, n, w ++ ["Unknown opportunity for invoice " ++ q.external_id])
            from by simp [syncStepSession, hres]]
          exact ih tbl n _ hcomb hrestnodup
            (fun r hr => hfresh r (List.mem_cons_of_mem q hr))
      | some opp =>
          rw [show syncStepSession now opps (tbl, n, w) q =
            (upsert_from_payload_session now opp.oid q.external_id q.amount
              q.issue_date q.due_date (resolveInvoiceStatus q.status)
              q.currency tbl, n + 1, w)
            from by simp [syncStepSession, hres]]
          by_cases hmem : ∃ inv ∈ tbl.rows, inv.external_id = q.external_id
          · refine ih _ (n + 1) w ?_ hrestnodup ?_
            · rw [upsert_session_rows_ext, upsert_session_hit_pending now
                opp.oid q.external_id q.amount q.issue_date q.due_date
                (resolveInvoiceStatus q.status) q.currency tbl hmem]
              exact hcomb
            · intro r hr
              rw [upsert_session_hit_pending now opp.oid q.external_id
                q.amount q.issue_date q.due_date (resolveInvoiceStatus q.status)
                q.currency tbl hmem]
              exact hfresh r (List.mem_cons_of_mem q hr)
          · push_neg at hmem
            have hmiss := upsert_session_miss now opp.oid q.external_id
              q.amount q.issue_date q.due_date (resolveInvoiceStatus q.status)
              q.currency tbl hmem
            refine ih _ (n + 1) w ?_ hrestnodup ?_
            · rw [hmiss]
              simp only [List.map_append, List.map_cons, List.map_nil]
              rw [← List.append_assoc, List.nodup_append]
              refine ⟨hcomb, List.nodup_singleton q.external_id, ?_⟩
              intro x hx hxe
              simp only [List.mem_singleton] at hxe
              subst hxe
              rcases List.mem_append.mp hx with h | h
              · obtain ⟨inv, hi, he⟩ := List.mem_map.mp h
                exact hmem inv hi he
              · exact hfresh q (List.mem_cons_self q rest) h
            · intro r hr
              rw [hmiss]
              simp only [List.map_append, List.map_cons, List.map_nil,
                List.mem_append, List.mem_singleton]
              rintro (h | h)
              · exact hfresh r (List.mem_cons_of_mem q hr) h
              · exact hqnot (h ▸ List.mem_map.mpr ⟨r, hr, rfl⟩)

/-- Counterexample to C1 as stated for every payload set: a batch whose two
payloads share the fresh external id INV-1 issues two INSERTs for that id —
the second lookup cannot see the first pending insert under
`autoflush = False` — so the flush would write two INV-1 rows; on the real
database the commit instead fails the `unique=True` constraint. Either way
the program does not leave exactly one Invoice carrying the latest payload's
field values. -/
theorem sync_idempotent_upsert_counterexample :
    ((runSyncBatchSession 3 [syncFixtureOpp] { rows := [], pending := [] }
        [payKnownA, payDupA]).1.pending.map (fun inv => inv.external_id) =
      ["INV-1", "INV-1"]) ∧
    ((commitInvoices (runSyncBatchSession 3 [syncFixtureOpp]
        { rows := [], pending := [] } [payKnownA, payDupA]).1).filter
      (fun inv => inv.external_id == "INV-1")).length = 2 := ⟨rfl, rfl⟩

/-- One committed batch that carries exactly one payload per external id
leaves exactly one row under that id, with the payload's field tuple. -/
theorem runSyncSession_commit_filter (now : Nat) (opps : List Opportunity)
    (ps : List InvoicePayload) (p : InvoicePayload)
    (hp : (get_by_infor_id opps p.opportunity_external_id).isSome = true)
    (hfil : ps.filter (fun q => q.external_id == p.external_id) = [p])
    (tbl : SessionInvoices) (hpend : tbl.pending = [])
    (hnodup : (tbl.rows.map (fun inv => inv.external_id)).Nodup) :
    ((commitInvoices (runSyncBatchSession now opps tbl ps).1).filter
        (fun inv => inv.external_id == p.external_id)).map invoiceFields =
      [payloadFields p] := by
  have hchar := runSyncSession_filter_e now opps p.external_id p hp ps tbl 0 []
    hfil hnodup
  unfold runSyncBatchSession commitInvoices
  rw [List.filter_append, List.map_append, hchar.1, hchar.2, hpend]
  by_cases hm : p.external_id ∈ tbl.rows.map (fun inv => inv.external_id)
  · rw [if_pos hm, if_pos hm]
    simp
  · rw [if_neg hm, if_neg hm]
    simp

/-- C1 (amended): over a store whose invoice external ids are unique, a batch
whose payloads carry pairwise-distinct external ids and all resolve to stored
Opportunities can be synced twice — each run in its own committed session —
leaving exactly one stored Invoice per payload external id, carrying that
payload's amount, issue date, due date, resolved status and currency; the
second run performs only in-place updates and schedules no INSERT. -/
theorem sync_idempotent_upsert_distinct (now now2 : Nat)
    (opps : List Opportunity) (invs0 : List Invoice)
    (ps : List InvoicePayload)
    (hnodup : (invs0.map (fun inv => inv.external_id)).Nodup)
    (hpsnodup : (ps.map (fun p => p.external_id)).Nodup)
    (hres : ∀ p ∈ ps,
      (get_by_infor_id opps p.opportunity_external_id).isSome = true) :
    ((runSyncBatchSession now2 opps
        { rows := commitInvoices (runSyncBatchSession now opps
            { rows := invs0, pending := [] } ps).1
          pending := [] } ps).1.pending = []) ∧
    ∀ p ∈ ps,
      (((commitInvoices (runSyncBatchSession now2 opps
            { rows := commitInvoices (runSyncBatchSession now opps
                { rows := invs0, pending := [] } ps).1
              pending := [] } ps).1).filter
          (fun inv => inv.external_id == p.external_id)).map invoiceFields =
        [payloadFields p]) ∧
      (((commitInvoices (runSyncBatchSession now opps
            { rows := invs0, pending := [] } ps).1).filter
          (fun inv => inv.external_id == p.external_id)).map invoiceFields =
        [payloadFields p]) := by
  have hfil : ∀ p ∈ ps,
      ps.filter (fun q => q.external_id == p.external_id) = [p] :=
    fun p hp => payload_filter_singleton ps p hpsnodup hp
  have hrun1 : ∀ p ∈ ps,
      ((commitInvoices (runSyncBatchSession now opps
          { rows := invs0, pending := [] } ps).1).filter
        (fun inv => inv.external_id == p.external_id)).map invoiceFields =
      [payloadFields p] :=
    fun p hp => runSyncSession_commit_filter now opps ps p (hres p hp)
      (hfil p hp) { rows := invs0, pending := [] } rfl hnodup
  have hC1nodup : ((commitInvoices (runSyncBatchSession now opps
      { rows := invs0, pending := [] } ps).1).map
        (fun inv => inv.external_id)).Nodup :=
    runSyncSession_commit_nodup now opps ps { rows := invs0, pending := [] }
      0 [] (by simpa using hnodup) hpsnodup (by intro p hp; simp)
  have hmemC1 : ∀ p ∈ ps,
      p.external_id ∈ (commitInvoices (runSyncBatchSession now opps
        { rows := invs0, pending := [] } ps).1).map
          (fun inv => inv.external_id) := by
    intro p hp
    have h1 := hrun1 p hp
    have hne : (commitInvoices (runSyncBatchSession now opps
        { rows := invs0, pending := [] } ps).1).filter
          (fun inv => inv.external_id == p.external_id) ≠ [] := by
      intro h0
      rw [h0] at h1
      exact List.noConfusion h1
    obtain ⟨inv, hinv⟩ := List.exists_mem_of_ne_nil _ hne
    have hsplit := List.mem_filter.mp hinv
    exact List.mem_map.mpr ⟨inv, hsplit.1, by simpa using hsplit.2⟩
  refine ⟨?_, ?_⟩
  · exact runSyncSession_no_insert now2 opps ps
      { rows := commitInvoices (runSyncBatchSession now opps
          { rows := invs0, pending := [] } ps).1
        pending := [] } 0 [] hmemC1
  · intro p hp
    refine ⟨?_, hrun1 p hp⟩
    exact runSyncSession_commit_filter now2 opps ps p (hres p hp) (hfil p hp)
      { rows := commitInvoices (runSyncBatchSession now opps
          { rows := invs0, pending := [] } ps).1
        pending := [] } rfl hC1nodup

/-- Witness for the amended C1: two distinct-id payloads, synced twice from
an empty store; the second run inserts nothing and INV-1 holds exactly its
payload's fields. -/
theorem sync_idempotent_upsert_distinct_witness :
    ((runSyncBatchSession 4 [syncFixtureOpp]
        { rows := commitInvoices (runSyncBatchSession 3 [syncFixtureOpp]
            { rows := [], pending := [] } [payKnownA, payKnownB]).1
          pending := [] } [payKnownA, payKnownB]).1.pending = []) ∧
    (((commitInvoices (runSyncBatchSession 4 [syncFixtureOpp]
          { rows := commitInvoices (runSyncBatchSession 3 [syncFixtureOpp]
              { rows := [], pending := [] } [payKnownA, payKnownB]).1
            pending := [] } [payKnownA, payKnownB]).1).filter
        (fun inv => inv.external_id == payKnownA.external_id)).map
      invoiceFields = [payloadFields payKnownA]) := by
  have h := sync_idempotent_upsert_distinct 3 4 [syncFixtureOpp] []
    [payKnownA, payKnownB] (by decide) (by decide) (by decide)
  exact ⟨h.1, (h.2 payKnownA (List.mem_cons_self payKnownA [payKnownB])).1⟩
